import Mathlib

/-!
Verification development for the async_crawler repository.

The crawler logic of crawler.py is shallowly embedded below: each method of
the Crawler class becomes a Lean function over an explicit state record, and
the pieces of urllib.parse and cgi that the crawler calls are modelled as
executable functions over lists of characters (following the CPython 3.4/3.5
implementations of urlsplit, urlunsplit, urljoin, urldefrag, splitport and
parse_header; URL path parameters, quoted parameter values and the IPv6
bracket check are not exercised by the crawler inputs studied here and are
left out of the model).  Character classes (digits, lower-casing) are ASCII.
-/

/-! ## Small list and string helpers -/

deriving instance DecidableEq for Except

/-- The whitespace stripped by Python str.strip with no argument (ASCII
part). -/
def pyIsSpace (c : Char) : Bool :=
  c = ' ' ∨ c = '\t' ∨ c = '\n' ∨ c = '\r' ∨ c = '\x0b' ∨ c = '\x0c'

/-- Python str.strip with no argument. -/
def pyStrip (l : List Char) : List Char :=
  ((l.dropWhile pyIsSpace).reverse.dropWhile pyIsSpace).reverse

/-- Python str.split on a one-character separator: always returns at least
one (possibly empty) part. -/
def splitOnChar (c : Char) : List Char → List (List Char)
  | [] => [[]]
  | d :: rest =>
    if d = c then [] :: splitOnChar c rest
    else
      match splitOnChar c rest with
      | s :: ss => (d :: s) :: ss
      | [] => [[d]]

/-- The number of UTF-8 bytes of one character; len of a read body is in
bytes. -/
def charUtf8Size (c : Char) : Nat :=
  if c.toNat < 128 then 1
  else if c.toNat < 2048 then 2
  else if c.toNat < 65536 then 3
  else 4

/-- The byte length of a string encoded as UTF-8. -/
def utf8Length (s : String) : Nat :=
  (s.data.map charUtf8Size).sum

/-- The insertion of Python set.add on a duplicate-free list model of a set:
append the element if it is not present. -/
def setAdd (l : List String) (x : String) : List String :=
  if x ∈ l then l else l ++ [x]

/-- Python set.update folded over a list of elements. -/
def setUpdate (l : List String) (xs : List String) : List String :=
  xs.foldl setAdd l

/-- Split a list of characters at the first occurrence of c, dropping c.
Returns none if c does not occur. -/
def splitAtChar (c : Char) : List Char → Option (List Char × List Char)
  | [] => none
  | d :: rest =>
    if d = c then some ([], rest)
    else (splitAtChar c rest).map (fun p => (d :: p.1, p.2))

/-- Split a list of characters at the last occurrence of c, dropping c. -/
def splitAtLastChar (c : Char) (l : List Char) : Option (List Char × List Char) :=
  (splitAtChar c l.reverse).map (fun p => (p.2.reverse, p.1.reverse))

/-- ASCII lower-casing, the model of Python str.lower on the hosts involved. -/
def pyLowerL (l : List Char) : List Char :=
  l.map Char.toLower

/-- ASCII lower-casing on String. -/
def pyLower (s : String) : String :=
  String.mk (pyLowerL s.data)

/-! ## Model of urllib.parse -/

/-- The characters allowed in a URL scheme, as in urllib.parse.scheme_chars. -/
def schemeChars : List Char :=
  "abcdefghijklmnopqrstuvwxyzABCDEFGHIJKLMNOPQRSTUVWXYZ0123456789+-.".data

/-- The result of urlsplit: scheme, netloc, path, query, fragment. -/
structure SplitL where
  scheme : List Char
  netloc : List Char
  path : List Char
  query : List Char
  frag : List Char
deriving DecidableEq, Repr

/-- The _splitnetloc helper of urllib.parse: cut the input at the first of
the characters slash, question mark or hash. -/
def splitNetloc : List Char → List Char × List Char
  | [] => ([], [])
  | d :: rest =>
    if d = '/' ∨ d = '?' ∨ d = '#' then ([], d :: rest)
    else
      let p := splitNetloc rest
      (d :: p.1, p.2)

/-- The tail of urlsplit after the scheme has been removed: netloc,
fragment and query extraction (allow_fragments is always true in the
crawler). -/
def urlsplitRest (scheme rest : List Char) : SplitL :=
  let np : List Char × List Char :=
    if rest.take 2 = ['/', '/'] then splitNetloc (rest.drop 2) else ([], rest)
  let netloc := np.1
  let rest1 := np.2
  let rf : List Char × List Char :=
    match splitAtChar '#' rest1 with
    | some p => p
    | none => (rest1, [])
  let pq : List Char × List Char :=
    match splitAtChar '?' rf.1 with
    | some p => p
    | none => (rf.1, [])
  ⟨scheme, netloc, pq.1, pq.2, rf.2⟩

/-- urllib.parse.urlsplit with a default scheme.  A scheme is recognised
when the text before the first colon is nonempty, consists of scheme
characters only, and the remainder is not a pure nonempty digit string
(the port-number guard of CPython). -/
def urlsplitL (url : List Char) (default : List Char) : SplitL :=
  match splitAtChar ':' url with
  | some (before, rest) =>
    if before ≠ [] ∧ before.all (fun c => c ∈ schemeChars)
        ∧ (rest = [] ∨ ¬ rest.all (fun c => c.isDigit)) then
      urlsplitRest (pyLowerL before) rest
    else
      urlsplitRest default url
  | none => urlsplitRest default url

/-- urllib.parse.urlunsplit. -/
def urlunsplitL (s : SplitL) : List Char :=
  let url := s.path
  let url :=
    if s.netloc ≠ [] ∨ url.take 2 = ['/', '/'] then
      ('/' :: '/' :: s.netloc) ++
        (if url ≠ [] ∧ url.take 1 ≠ ['/'] then '/' :: url else url)
    else url
  let url := if s.scheme ≠ [] then s.scheme ++ ':' :: url else url
  let url := if s.query ≠ [] then url ++ '?' :: s.query else url
  if s.frag ≠ [] then url ++ '#' :: s.frag else url

/-- Python str.split on the slash character. -/
def splitSeg (l : List Char) : List (List Char) :=
  splitOnChar '/' l

/-- The schemes of urllib.parse.uses_relative that matter here. -/
def usesRelative : List (List Char) :=
  [[], "ftp".data, "http".data, "https".data, "file".data, "ws".data, "wss".data]

/-- The schemes of urllib.parse.uses_netloc that matter here. -/
def usesNetloc : List (List Char) :=
  [[], "ftp".data, "http".data, "https".data, "file".data, "git".data, "ws".data, "wss".data]

/-- One step of the dot-segment resolution loop of urljoin. -/
def segStep (acc : List (List Char)) (seg : List Char) : List (List Char) :=
  if seg = ['.', '.'] then acc.dropLast
  else if seg = ['.'] then acc
  else acc ++ [seg]

/-- urllib.parse.urljoin (CPython 3.5, with URL path parameters not
modelled: no input here carries a semicolon path parameter). -/
def urljoinL (base url : List Char) : List Char :=
  if base = [] then url
  else if url = [] then base
  else
    let b := urlsplitL base []
    let u := urlsplitL url b.scheme
    if u.scheme ≠ b.scheme ∨ u.scheme ∉ usesRelative then url
    else if u.scheme ∈ usesNetloc ∧ u.netloc ≠ [] then
      urlunsplitL ⟨u.scheme, u.netloc, u.path, u.query, u.frag⟩
    else
      let netloc := if u.scheme ∈ usesNetloc then b.netloc else u.netloc
      if u.path = [] then
        urlunsplitL ⟨u.scheme, netloc, b.path,
          (if u.query = [] then b.query else u.query), u.frag⟩
      else
        let segments := (splitSeg b.path).dropLast ++ splitSeg u.path
        let resolved := segments.foldl segStep []
        let resolved :=
          if segments.getLast? = some ['.'] ∨ segments.getLast? = some ['.', '.'] then
            resolved ++ [[]]
          else resolved
        let joined := List.intercalate ['/'] resolved
        urlunsplitL ⟨u.scheme, netloc, (if joined = [] then ['/'] else joined),
          u.query, u.frag⟩

/-- urllib.parse.urljoin on String. -/
def urljoin (base url : String) : String :=
  String.mk (urljoinL base.data url.data)

/-- urllib.parse.urldefrag: the fragment-free part of a URL. -/
def urldefragL (url : List Char) : List Char :=
  if '#' ∈ url then
    let s := urlsplitL url []
    urlunsplitL ⟨s.scheme, s.netloc, s.path, s.query, []⟩
  else url

/-- urllib.parse.splitport: split a trailing all-digit port off a host.
The regex of CPython matches exactly when everything after the last colon
is a digit string; an empty port leaves the host untouched. -/
def splitportL (host : List Char) : List Char × Option (List Char) :=
  match splitAtLastChar ':' host with
  | some (before, after) =>
    if after.all (fun c => c.isDigit) then
      if after ≠ [] then (before, some after) else (host, none)
    else (host, none)
  | none => (host, none)

/-! ## Model of cgi.parse_header -/

/-- cgi.parse_header: the main value and the parameter alist.  The line is
split on semicolons with each part whitespace-stripped, as the _parseparam
generator of the cgi module does (quote-aware splitting and backslash
unescaping are not modelled: no header here quotes a semicolon).  Parameter
names are lower-cased; surrounding double quotes of a value are removed. -/
def parse_header (line : String) : String × List (String × String) :=
  match (splitOnChar ';' line.data).map pyStrip with
  | [] => ("", [])
  | main :: params =>
    (String.mk main,
     params.filterMap (fun p =>
       match splitAtChar '=' p with
       | some (n, v) =>
         let v := pyStrip v
         let v :=
           if v.length ≥ 2 ∧ v.head? = some '"' ∧ v.getLast? = some '"' then
             (v.drop 1).dropLast
           else v
         some (String.mk (pyLowerL (pyStrip n)), String.mk v)
       | none => none))

/-! ## The crawler model

Each method of the Crawler class of crawler.py becomes a function over an
explicit CrawlState.  The instance configuration (root_domain, computed once
in the constructor, and max_redirect) is a separate Config record.  The HTTP
transport and the markup scanner are external collaborators: a World maps a
URL to none (an aiohttp ClientError) or to a SimResponse carrying the
status, the headers, the body, and the scanner outputs (anchor hrefs and
asset references) for that body.  Since fetch issues requests with
allow_redirects disabled, response.url always equals the requested URL and
is passed along explicitly.  An exception escaping a method (the missing
Location header KeyError of process_redirect) is an Except.error. -/

/-- The FetchStatistic namedtuple of crawler.py. -/
structure FetchStatistic where
  url : String
  next_url : Option String
  status : Nat
  exception : Option String
  size : Nat
  content_type : Option String
  encoding : Option String
  num_urls : Nat
  num_new_urls : Nat
deriving DecidableEq, Repr

/-- One sitemap value: the scanned asset references and the set of all
normalized links of the page, as stored by update_sitemap. -/
structure SitemapEntry where
  assets : List String
  links : List String
deriving DecidableEq, Repr

/-- The mutable state of a Crawler instance: the frontier queue q, the
seen_urls set (a duplicate-free list), the visited statistics log and the
sitemap (an association list keyed by page URL). -/
structure CrawlState where
  q : List (String × Nat)
  seen_urls : List String
  visited : List FetchStatistic
  sitemap : List (String × SitemapEntry)
deriving DecidableEq, Repr

/-- The per-instance configuration fixed by the Crawler constructor. -/
structure Config where
  root_domain : String
  max_redirect : Nat
deriving DecidableEq, Repr

/-- A response as the crawler sees it: status, headers (keys already
lower-cased, as aiohttp headers are case-insensitive), the body, and the
markup scanner outputs for that body (anchor href values, in document
order, and asset references). -/
structure SimResponse where
  status : Nat
  headers : List (String × String)
  body : String
  hrefs : List String
  assets : List String
deriving DecidableEq, Repr

/-- The HTTP transport: none models an aiohttp ClientError. -/
def World : Type := String → Option SimResponse

/-- A Python exception escaping a crawler method. -/
inductive PyExc where
  | keyError (key : String)
deriving DecidableEq, Repr

/-- Case-insensitive-keyed header lookup (keys are stored lower-cased). -/
def lookupHeader (headers : List (String × String)) (key : String) : Option String :=
  (headers.find? (fun p => p.1 = key)).map Prod.snd

/-- Crawler.extract_domain. -/
def extract_domain (root : String) : String :=
  let parts := urlsplitL root.data []
  let host := (splitportL parts.netloc).1
  if host.all (fun c => c.isDigit ∨ c = '.') then String.mk host
  else String.mk (pyLowerL host)

/-- Crawler.is_redirect. -/
def is_redirect (response : SimResponse) : Bool :=
  response.status = 300 ∨ response.status = 301 ∨ response.status = 302
    ∨ response.status = 303 ∨ response.status = 307

/-- The digits-and-dots test of the regex used in host_okay and
extract_domain; the empty string also matches. -/
def isDigitsDots (s : String) : Bool :=
  s.data.all (fun c => c.isDigit ∨ c = '.')

/-- Crawler.host_okay (startswith and slicing are carried out on the
character list of the host). -/
def host_okay (root_domain : String) (host : String) : Bool :=
  let h := pyLowerL host.data
  if h = root_domain.data then true
  else if h.all (fun c => c.isDigit ∨ c = '.') then false
  else
    let h := if h.take 4 = ['w', 'w', 'w', '.'] then h.drop 4 else ['w', 'w', 'w', '.'] ++ h
    h = root_domain.data

/-- Crawler.record_statistic. -/
def record_statistic (st : CrawlState) (stat : FetchStatistic) : CrawlState :=
  { st with visited := st.visited ++ [stat] }

/-- Crawler.update_sitemap: upsert the entry keyed by the page URL. -/
def update_sitemap (st : CrawlState) (url : String) (entry : SitemapEntry) : CrawlState :=
  if (st.sitemap.find? (fun p => p.1 = url)).isSome then
    { st with sitemap := st.sitemap.map (fun p => if p.1 = url then (url, entry) else p) }
  else
    { st with sitemap := st.sitemap ++ [(url, entry)] }

/-- Crawler.normalize_url: join against the page URL of the response, then
drop the fragment. -/
def normalize_url (url : String) (responseUrl : String) : String :=
  String.mk (urldefragL (urljoinL responseUrl.data url.data))

/-- Crawler.url_allowed. -/
def url_allowed (root_domain : String) (url : String) : Bool :=
  let parts := urlsplitL url.data []
  if ¬ (parts.scheme = "http".data ∨ parts.scheme = "https".data) then false
  else
    let host := String.mk (splitportL parts.netloc).1
    if ¬ host_okay root_domain host then false else true

/-- Crawler.add_url: unconditionally insert into seen_urls and append to
the queue (a none budget takes the configured maximum, like the Python
default argument). -/
def add_url (cfg : Config) (st : CrawlState) (url : String) (max_redirect : Option Nat) :
    CrawlState :=
  let m := max_redirect.getD cfg.max_redirect
  { st with seen_urls := setAdd st.seen_urls url, q := st.q ++ [(url, m)] }

/-- The content_type and parameter dict computed by parse_response for a
200 response: the header value is run through parse_header only when it is
present and nonempty (Python truthiness). -/
def py_content_type (response : SimResponse) : Option String × List (String × String) :=
  match lookupHeader response.headers "content-type" with
  | none => (none, [])
  | some v =>
    if v ≠ "" then
      let p := parse_header v
      (some p.1, p.2)
    else (some v, [])

/-- Crawler.parse_response: returns the updated state (the sitemap upsert
happens inside this method), the FetchStatistic and the in-scope link set.
Python set iteration is modelled by first-occurrence order. -/
def parse_response (cfg : Config) (st : CrawlState) (response : SimResponse)
    (responseUrl : String) : CrawlState × FetchStatistic × List String :=
  if response.status = 200 then
    let ctp := py_content_type response
    let content_type := ctp.1
    let encoding := some ((ctp.2.lookup "charset").getD "utf-8")
    if content_type = some "text/html" ∨ content_type = some "application/xml" then
      let urls := response.hrefs.foldl (fun acc u => setAdd acc u) []
      let normalized_urls :=
        urls.foldl (fun acc u => setAdd acc (normalize_url u responseUrl)) []
      let links := normalized_urls.filter (fun u => url_allowed cfg.root_domain u)
      let st := update_sitemap st responseUrl ⟨response.assets, normalized_urls⟩
      (st,
       { url := responseUrl, next_url := none, status := 200, exception := none,
         size := utf8Length response.body, content_type := content_type,
         encoding := encoding, num_urls := links.length,
         num_new_urls := (links.filter (fun l => l ∉ st.seen_urls)).length },
       links)
    else
      (st,
       { url := responseUrl, next_url := none, status := 200, exception := none,
         size := utf8Length response.body, content_type := content_type,
         encoding := encoding, num_urls := 0, num_new_urls := 0 },
       [])
  else
    (st,
     { url := responseUrl, next_url := none, status := response.status,
       exception := none, size := utf8Length response.body, content_type := none,
       encoding := none, num_urls := 0, num_new_urls := 0 },
     [])

/-- Crawler.process_redirect: a missing Location header raises a KeyError;
the seen check precedes the budget check; the budget-exhausted branch only
logs. -/
def process_redirect (st : CrawlState) (cfg : Config) (response : SimResponse)
    (url : String) (max_redirect : Nat) : Except PyExc CrawlState :=
  match lookupHeader response.headers "location" with
  | none => .error (.keyError "location")
  | some location =>
    let next_url := urljoin url location
    if next_url ∈ st.seen_urls then .ok st
    else if max_redirect > 0 then .ok (add_url cfg st next_url (some (max_redirect - 1)))
    else .ok st

/-- Crawler.fetch: a transport failure is caught and aborts the item with
no outcome; a redirect goes to process_redirect; otherwise parse, record
the statistic, enqueue the links not yet seen (each with the configured
maximum budget) and add all links to seen_urls. -/
def fetch (cfg : Config) (world : World) (st : CrawlState) (url : String)
    (max_redirect : Nat) : Except PyExc CrawlState :=
  match world url with
  | none => .ok st
  | some response =>
    if is_redirect response then process_redirect st cfg response url max_redirect
    else
      let plr := parse_response cfg st response url
      let st := record_statistic plr.1 plr.2.1
      let links := plr.2.2
      let newLinks := links.filter (fun l => l ∉ st.seen_urls)
      let st := { st with q := st.q ++ newLinks.map (fun l => (l, cfg.max_redirect)) }
      .ok { st with seen_urls := setUpdate st.seen_urls links }

/-! ## The worker pool as a transition system

Crawler.work repeatedly takes an item from the queue, runs fetch on it and
marks it done; Crawler.crawl launches max_tasks such workers and waits for
the queue to join (every admitted item marked done and nothing queued).
Between the take and the completion of fetch the item is in flight, so the
system state is the crawl state plus the multiset of in-flight items; a
step either hands a queued item to one of the idle workers or completes an
in-flight fetch atomically (the post-response part of fetch runs without a
suspension point). -/

/-- The crawl state together with the in-flight items held by workers. -/
structure SysState where
  base : CrawlState
  held : List (String × Nat)
deriving DecidableEq, Repr

/-- One scheduler step of a crawl with n workers. -/
inductive Step (cfg : Config) (world : World) (n : Nat) : SysState → SysState → Prop
  | take (st : CrawlState) (held : List (String × Nat)) (it : String × Nat)
      (q' : List (String × Nat)) (hlen : held.length < n) (hq : st.q = it :: q') :
      Step cfg world n ⟨st, held⟩ ⟨{ st with q := q' }, it :: held⟩
  | finish (st st' : CrawlState) (held : List (String × Nat)) (it : String × Nat)
      (hmem : it ∈ held) (hok : fetch cfg world st it.1 it.2 = .ok st') :
      Step cfg world n ⟨st, held⟩ ⟨st', held.erase it⟩

/-- The drain condition of the joinable queue: no queued and no in-flight
item (count admitted equals count marked done, and the queue is empty). -/
def Drained (s : SysState) : Prop :=
  s.base.q = [] ∧ s.held = []

/-- A sequential executor for redirect chains: pop the head item, fetch it,
repeat; the queue never holds more than one item in a chain crawl, so this
is the behaviour of the worker pool there. -/
def runSeq (cfg : Config) (world : World) : Nat → CrawlState → Except PyExc CrawlState
  | 0, st => .ok st
  | fuel + 1, st =>
    match st.q with
    | [] => .ok st
    | (url, m) :: rest =>
      (fetch cfg world { st with q := rest } url m).bind (runSeq cfg world fuel)

/-- The crawl state of a freshly constructed Crawler before the root is
admitted. -/
def emptyState : CrawlState :=
  ⟨[], [], [], []⟩

/-- A configuration used for concrete evaluations. -/
def cfg0 : Config :=
  ⟨"example.com", 10⟩

/-! ## A concrete two-children site (claim C2) -/

/-- The root URL of the two-children site. -/
def root2 : String := "http://example.com/"

/-- First child page URL. -/
def childA : String := "http://example.com/a"

/-- Second child page URL. -/
def childB : String := "http://example.com/b"

/-- The configuration the Crawler constructor builds for root2. -/
def cfg2 : Config :=
  { root_domain := extract_domain root2, max_redirect := 10 }

/-- The two-children site: the root links to two in-scope pages that have
no further links; every page is 200 text/html. -/
def world2 : World := fun u =>
  if u = root2 then some ⟨200, [("content-type", "text/html")], "", ["a", "b"], []⟩
  else if u = childA ∨ u = childB then
    some ⟨200, [("content-type", "text/html")], "", [], []⟩
  else none

/-- The system state right after the Crawler constructor ran: the root has
been admitted and no worker holds anything. -/
def initState2 : SysState :=
  ⟨add_url cfg2 emptyState root2 none, []⟩

/-- The statistic recorded for the root page of the two-children site. -/
def statR : FetchStatistic :=
  ⟨root2, none, 200, none, 0, some "text/html", some "utf-8", 2, 2⟩

/-- The statistic recorded for child page a. -/
def statA : FetchStatistic :=
  ⟨childA, none, 200, none, 0, some "text/html", some "utf-8", 0, 0⟩

/-- The statistic recorded for child page b. -/
def statB : FetchStatistic :=
  ⟨childB, none, 200, none, 0, some "text/html", some "utf-8", 0, 0⟩

/-- The seen set once the root page has been parsed. -/
def seen3 : List String := [root2, childA, childB]

/-- The sitemap entry of the root page. -/
def smR : List (String × SitemapEntry) := [(root2, ⟨[], [childA, childB]⟩)]

/-- The sitemap entry of a child page. -/
def smLeaf (u : String) : String × SitemapEntry := (u, ⟨[], []⟩)

/-- Reachable state: the root is queued, nothing is in flight. -/
def node0 : SysState := ⟨⟨[(root2, 10)], [root2], [], []⟩, []⟩

/-- Reachable state: the root is in flight. -/
def node1 : SysState := ⟨⟨[], [root2], [], []⟩, [(root2, 10)]⟩

/-- Reachable state: the root is done, both children are queued. -/
def node2 : SysState := ⟨⟨[(childA, 10), (childB, 10)], seen3, [statR], smR⟩, []⟩

/-- Reachable state: child a in flight, child b queued. -/
def node3 : SysState := ⟨⟨[(childB, 10)], seen3, [statR], smR⟩, [(childA, 10)]⟩

/-- Reachable state: both children in flight. -/
def node4 : SysState := ⟨⟨[], seen3, [statR], smR⟩, [(childB, 10), (childA, 10)]⟩

/-- Reachable state: child a done, child b queued. -/
def node5 : SysState := ⟨⟨[(childB, 10)], seen3, [statR, statA], smR ++ [smLeaf childA]⟩, []⟩

/-- Reachable state: child b done, child a in flight. -/
def node6 : SysState := ⟨⟨[], seen3, [statR, statB], smR ++ [smLeaf childB]⟩, [(childA, 10)]⟩

/-- Reachable state: child a done, child b in flight. -/
def node7 : SysState := ⟨⟨[], seen3, [statR, statA], smR ++ [smLeaf childA]⟩, [(childB, 10)]⟩

/-- Reachable state: all three pages done, child a first. -/
def node8 : SysState :=
  ⟨⟨[], seen3, [statR, statA, statB], smR ++ [smLeaf childA, smLeaf childB]⟩, []⟩

/-- Reachable state: all three pages done, child b first. -/
def node9 : SysState :=
  ⟨⟨[], seen3, [statR, statB, statA], smR ++ [smLeaf childB, smLeaf childA]⟩, []⟩

/-- All states reachable in a crawl of the two-children site, with any
number of workers. -/
def reachSet : List SysState :=
  [node0, node1, node2, node3, node4, node5, node6, node7, node8, node9]

/-- The termination measure of a two-children crawl: queued items cost one
more than in-flight items, and the root outweighs the two links its fetch
can enqueue. -/
def phi (s : SysState) : Nat :=
  (s.base.q.map (fun it => if it.1 = root2 then 12 else 4)).sum
    + (s.held.map (fun it => if it.1 = root2 then 11 else 3)).sum

/-! ## A concrete redirect chain (claim C3) -/

/-- The characters of the root URL under which the chain lives. -/
def preData : List Char :=
  ['h', 't', 't', 'p', ':', '/', '/', 'e', 'x', 'a', 'm', 'p', 'l', 'e',
   '.', 'c', 'o', 'm', '/']

/-- Hop i of the redirect chain: the root URL followed by i times the
letter a. -/
def chainUrl (i : Nat) : String :=
  String.mk (preData ++ List.replicate i 'a')

/-- Count a pure run of the letter a. -/
def countAs : List Char → Option Nat
  | [] => some 0
  | c :: rest => if c = 'a' then (countAs rest).map (· + 1) else none

/-- Strip an expected leading character sequence, then count letters a. -/
def stripThenCount : List Char → List Char → Option Nat
  | [], s => countAs s
  | _ :: _, [] => none
  | c :: p, d :: s => if c = d then stripThenCount p s else none

/-- Recover the hop index from a chain URL. -/
def decodeChain (u : String) : Option Nat :=
  stripThenCount preData u.data

/-- The response of hop i in a chain of length L: hops before L redirect
to the next hop with status 301, hop L is a 200 text/html page without
links. -/
def chainResp (L i : Nat) : Option SimResponse :=
  if i < L then some ⟨301, [("location", chainUrl (i + 1))], "", [], []⟩
  else if i = L then some ⟨200, [("content-type", "text/html")], "", [], []⟩
  else none

/-- The chain site of length L. -/
def chainWorld (L : Nat) : World := fun u =>
  match decodeChain u with
  | some i => chainResp L i
  | none => none

/-- The configuration the Crawler constructor builds for the chain root
with maximum redirect depth M. -/
def cfgChain (M : Nat) : Config :=
  { root_domain := extract_domain (chainUrl 0), max_redirect := M }

/-- The crawl state right after the chain root has been admitted. -/
def initChain (M : Nat) : CrawlState :=
  add_url (cfgChain M) emptyState (chainUrl 0) none

/-- The seen set after hops 0 through k have been admitted. -/
def chainSeen (k : Nat) : List String :=
  (List.range (k + 1)).map chainUrl

/-- The statistic recorded for the final hop of a completed chain. -/
def statChain (L : Nat) : FetchStatistic :=
  ⟨chainUrl L, none, 200, none, 0, some "text/html", some "utf-8", 0, 0⟩

/-! ## The scope policy in the words of the specification (claim C4) -/

/-- Modelled from the words of claim C4 and spec section 4.2: lower-case
the host; exact match with the root domain is in scope; an all
digits-and-dots host is out of scope; otherwise strip a leading www. or
prepend www. and compare with the root domain. -/
def spec_host_in_scope (root_domain : String) (host : String) : Bool :=
  let h := pyLowerL host.data
  if h = root_domain.data then true
  else if h.all (fun c => c.isDigit ∨ c = '.') then false
  else if h.take 4 = ['w', 'w', 'w', '.'] then h.drop 4 = root_domain.data
  else ['w', 'w', 'w', '.'] ++ h = root_domain.data

/-- A redirect response that carries no Location header. -/
def respC9 : SimResponse :=
  ⟨301, [], "", [], []⟩

/-- A one-page site whose only response is a redirect without Location. -/
def worldC9 : World := fun u =>
  if u = "http://example.com/r" then some respC9 else none

/-- A plain-text response: 200 but not an HTML or XML content type. -/
def respPlain : SimResponse :=
  ⟨200, [("content-type", "text/plain")], "hello", [], []⟩

/-- A one-page site serving only the plain-text response. -/
def worldC7 : World := fun u =>
  if u = "http://example.com/p" then some respPlain else none

/-- The dedup invariant: the URL of every queued frontier item is a member
of the seen set. -/
def FrontierInv (st : CrawlState) : Prop :=
  ∀ it ∈ st.q, it.1 ∈ st.seen_urls

/-! ## Lemmas about the set model -/

theorem mem_setAdd_self (l : List String) (x : String) : x ∈ setAdd l x := by
  unfold setAdd; split <;> simp_all

theorem mem_setAdd_of_mem {l : List String} {y : String} (x : String) (h : y ∈ l) :
    y ∈ setAdd l x := by
  unfold setAdd; split <;> simp_all

theorem subset_setUpdate (l : List String) (xs : List String) : l ⊆ setUpdate l xs := by
  unfold setUpdate
  induction xs generalizing l with
  | nil => simp
  | cons x xs ih =>
    intro y hy
    exact ih (setAdd l x) (mem_setAdd_of_mem x hy)

theorem mem_setUpdate_of_mem_arg (xs : List String) (x : String) :
    ∀ l, x ∈ xs → x ∈ setUpdate l xs := by
  induction xs with
  | nil => intro l h; cases h
  | cons z zs ih =>
    intro l h
    simp only [setUpdate, List.foldl] at *
    rcases List.mem_cons.mp h with rfl | hx
    · exact subset_setUpdate (setAdd l x) zs (mem_setAdd_self l x)
    · exact ih (setAdd l z) hx

/-! ## Shape lemmas about parse_response and fetch -/

theorem parse_response_non200 (cfg : Config) (st : CrawlState) (resp : SimResponse)
    (url : String) (h : resp.status ≠ 200) :
    parse_response cfg st resp url
      = (st, ⟨url, none, resp.status, none, utf8Length resp.body, none, none, 0, 0⟩, []) := by
  unfold parse_response
  rw [if_neg h]

theorem parse_response_200_not_html (cfg : Config) (st : CrawlState) (resp : SimResponse)
    (url : String) (hst : resp.status = 200)
    (h1 : (py_content_type resp).1 ≠ some "text/html")
    (h2 : (py_content_type resp).1 ≠ some "application/xml") :
    parse_response cfg st resp url
      = (st, ⟨url, none, 200, none, utf8Length resp.body, (py_content_type resp).1,
          some (((py_content_type resp).2.lookup "charset").getD "utf-8"), 0, 0⟩, []) := by
  unfold parse_response
  rw [if_pos hst]
  simp only [if_neg (show ¬((py_content_type resp).1 = some "text/html"
    ∨ (py_content_type resp).1 = some "application/xml") by push_neg; exact ⟨h1, h2⟩)]

theorem parse_response_keeps_q_seen (cfg : Config) (st : CrawlState) (resp : SimResponse)
    (url : String) :
    (parse_response cfg st resp url).1.q = st.q
    ∧ (parse_response cfg st resp url).1.seen_urls = st.seen_urls := by
  unfold parse_response
  by_cases h1 : resp.status = 200
  · rw [if_pos h1]
    by_cases hct : (py_content_type resp).1 = some "text/html"
        ∨ (py_content_type resp).1 = some "application/xml"
    · rw [if_pos hct]
      unfold update_sitemap
      split_ifs <;> simp
    · rw [if_neg hct]
      exact ⟨rfl, rfl⟩
  · rw [if_neg h1]
    exact ⟨rfl, rfl⟩

theorem fetch_shape_parse (cfg : Config) (world : World) (st : CrawlState) (url : String)
    (m : Nat) (resp : SimResponse) (hw : world url = some resp)
    (hnr : is_redirect resp = false) :
    fetch cfg world st url m
      = .ok { q := (parse_response cfg st resp url).1.q
                ++ ((parse_response cfg st resp url).2.2.filter
                      (fun l => l ∉ (parse_response cfg st resp url).1.seen_urls)).map
                    (fun l => (l, cfg.max_redirect)),
              seen_urls := setUpdate (parse_response cfg st resp url).1.seen_urls
                  (parse_response cfg st resp url).2.2,
              visited := (parse_response cfg st resp url).1.visited
                  ++ [(parse_response cfg st resp url).2.1],
              sitemap := (parse_response cfg st resp url).1.sitemap } := by
  unfold fetch
  rw [hw]
  simp only [hnr, Bool.false_eq_true, if_false, record_statistic]

/-! ## Lemmas about the two-children transition system -/

theorem drained_no_step (cfg : Config) (world : World) (n : Nat) (s t : SysState)
    (hd : Drained s) : ¬ Step cfg world n s t := by
  intro hstep
  cases hstep with
  | take st held it q' hlen hq =>
    have h1 : st.q = [] := hd.1
    rw [h1] at hq
    exact List.noConfusion hq
  | finish st st' held it hmem hok =>
    have h2 : held = [] := hd.2
    rw [h2] at hmem
    cases hmem

theorem reach_closed (n : Nat) (s t : SysState) (hs : s ∈ reachSet)
    (hstep : Step cfg2 world2 n s t) : t ∈ reachSet ∧ phi t < phi s := by
  simp only [reachSet, List.mem_cons, List.not_mem_nil, or_false] at hs
  rcases hs with rfl | rfl | rfl | rfl | rfl | rfl | rfl | rfl | rfl | rfl
  · cases hstep with
    | take st held it q' hlen hq =>
      injection hq with h1 h2
      subst h1; subst h2
      exact ⟨by decide, by decide⟩
    | finish st st' held it hmem hok => cases hmem
  · cases hstep with
    | take st held it q' hlen hq => exact List.noConfusion hq
    | finish st st' held it hmem hok =>
      fin_cases hmem
      have h := Except.ok.inj ((show fetch cfg2 world2 ⟨[], [root2], [], []⟩ root2 10
          = Except.ok ⟨[(childA, 10), (childB, 10)], seen3, [statR], smR⟩ from by decide).symm.trans hok)
      subst h
      exact ⟨by decide, by decide⟩
  · cases hstep with
    | take st held it q' hlen hq =>
      injection hq with h1 h2
      subst h1; subst h2
      exact ⟨by decide, by decide⟩
    | finish st st' held it hmem hok => cases hmem
  · cases hstep with
    | take st held it q' hlen hq =>
      injection hq with h1 h2
      subst h1; subst h2
      exact ⟨by decide, by decide⟩
    | finish st st' held it hmem hok =>
      fin_cases hmem
      have h := Except.ok.inj ((show fetch cfg2 world2 ⟨[(childB, 10)], seen3, [statR], smR⟩ childA 10
          = Except.ok ⟨[(childB, 10)], seen3, [statR, statA], smR ++ [smLeaf childA]⟩ from by decide).symm.trans hok)
      subst h
      exact ⟨by decide, by decide⟩
  · cases hstep with
    | take st held it q' hlen hq => exact List.noConfusion hq
    | finish st st' held it hmem hok =>
      fin_cases hmem
      · have h := Except.ok.inj ((show fetch cfg2 world2 ⟨[], seen3, [statR], smR⟩ childB 10
            = Except.ok ⟨[], seen3, [statR, statB], smR ++ [smLeaf childB]⟩ from by decide).symm.trans hok)
        subst h
        exact ⟨by decide, by decide⟩
      · have h := Except.ok.inj ((show fetch cfg2 world2 ⟨[], seen3, [statR], smR⟩ childA 10
            = Except.ok ⟨[], seen3, [statR, statA], smR ++ [smLeaf childA]⟩ from by decide).symm.trans hok)
        subst h
        exact ⟨by decide, by decide⟩
  · cases hstep with
    | take st held it q' hlen hq =>
      injection hq with h1 h2
      subst h1; subst h2
      exact ⟨by decide, by decide⟩
    | finish st st' held it hmem hok => cases hmem
  · cases hstep with
    | take st held it q' hlen hq => exact List.noConfusion hq
    | finish st st' held it hmem hok =>
      fin_cases hmem
      have h := Except.ok.inj ((show fetch cfg2 world2 ⟨[], seen3, [statR, statB], smR ++ [smLeaf childB]⟩ childA 10
          = Except.ok ⟨[], seen3, [statR, statB, statA], smR ++ [smLeaf childB, smLeaf childA]⟩ from by decide).symm.trans hok)
      subst h
      exact ⟨by decide, by decide⟩
  · cases hstep with
    | take st held it q' hlen hq => exact List.noConfusion hq
    | finish st st' held it hmem hok =>
      fin_cases hmem
      have h := Except.ok.inj ((show fetch cfg2 world2 ⟨[], seen3, [statR, statA], smR ++ [smLeaf childA]⟩ childB 10
          = Except.ok ⟨[], seen3, [statR, statA, statB], smR ++ [smLeaf childA, smLeaf childB]⟩ from by decide).symm.trans hok)
      subst h
      exact ⟨by decide, by decide⟩
  · cases hstep with
    | take st held it q' hlen hq => exact List.noConfusion hq
    | finish st st' held it hmem hok => cases hmem
  · cases hstep with
    | take st held it q' hlen hq => exact List.noConfusion hq
    | finish st st' held it hmem hok => cases hmem

theorem reach_progress (n : Nat) (hn : 0 < n) (s : SysState) (hs : s ∈ reachSet)
    (hnd : ¬ Drained s) : ∃ t, Step cfg2 world2 n s t := by
  simp only [reachSet, List.mem_cons, List.not_mem_nil, or_false] at hs
  rcases hs with rfl | rfl | rfl | rfl | rfl | rfl | rfl | rfl | rfl | rfl
  · exact ⟨_, Step.take _ _ (root2, 10) [] (by simpa using hn) rfl⟩
  · exact ⟨_, Step.finish _ ⟨[(childA, 10), (childB, 10)], seen3, [statR], smR⟩ _ (root2, 10)
      (by simp) (by decide)⟩
  · exact ⟨_, Step.take _ _ (childA, 10) [(childB, 10)] (by simpa using hn) rfl⟩
  · exact ⟨_, Step.finish _ ⟨[(childB, 10)], seen3, [statR, statA], smR ++ [smLeaf childA]⟩ _
      (childA, 10) (by simp) (by decide)⟩
  · exact ⟨_, Step.finish _ ⟨[], seen3, [statR, statB], smR ++ [smLeaf childB]⟩ _
      (childB, 10) (by simp) (by decide)⟩
  · exact ⟨_, Step.take _ _ (childB, 10) [] (by simpa using hn) rfl⟩
  · exact ⟨_, Step.finish _ ⟨[], seen3, [statR, statB, statA], smR ++ [smLeaf childB, smLeaf childA]⟩ _
      (childA, 10) (by simp) (by decide)⟩
  · exact ⟨_, Step.finish _ ⟨[], seen3, [statR, statA, statB], smR ++ [smLeaf childA, smLeaf childB]⟩ _
      (childB, 10) (by simp) (by decide)⟩
  · exact absurd ⟨rfl, rfl⟩ hnd
  · exact absurd ⟨rfl, rfl⟩ hnd

theorem reach_of_reflTrans (n : Nat) (s : SysState)
    (h : Relation.ReflTransGen (Step cfg2 world2 n) initState2 s) : s ∈ reachSet := by
  induction h with
  | refl => decide
  | tail hab hbc ih => exact (reach_closed n _ _ ih hbc).1

theorem no_infinite_run (n : Nat) (f : Nat → SysState) (h0 : f 0 = initState2)
    (hstep : ∀ i, Step cfg2 world2 n (f i) (f (i + 1))) : False := by
  have hreach : ∀ i, f i ∈ reachSet := by
    intro i
    induction i with
    | zero => rw [h0]; decide
    | succ k ih => exact (reach_closed n (f k) (f (k + 1)) ih (hstep k)).1
  have hdec : ∀ i, phi (f (i + 1)) < phi (f i) := fun i =>
    (reach_closed n (f i) (f (i + 1)) (hreach i) (hstep i)).2
  have hle : ∀ k i, phi (f (i + k)) + k ≤ phi (f i) := by
    intro k
    induction k with
    | zero => intro i; simp
    | succ j ih =>
      intro i
      have h1 := hdec i
      have h2 := ih (i + 1)
      have h3 : i + (j + 1) = (i + 1) + j := by omega
      rw [h3]
      omega
  have := hle (phi (f 0) + 1) 0
  simp only [Nat.zero_add] at this
  omega

theorem drained_reach_three (s : SysState) (hs : s ∈ reachSet) (hd : Drained s) :
    s.base.visited.length = 3 := by
  simp only [reachSet, List.mem_cons, List.not_mem_nil, or_false] at hs
  rcases hs with rfl | rfl | rfl | rfl | rfl | rfl | rfl | rfl | rfl | rfl <;>
    first
      | rfl
      | exact absurd hd (by simp [Drained, node0, node1, node2, node3, node4, node5, node6, node7])

/-! ## The claims -/

/-- C1: admitting the same URL twice is not a no-op.  add_url has no
membership check, so the second call appends a second frontier item even
though the URL is already in seen_urls (the seen set itself stays a
singleton); the docstring of add_url promises the opposite. -/
theorem add_url_readmission_enqueues_again :
    (add_url cfg0 (add_url cfg0 emptyState "http://example.com/x" (some 10))
        "http://example.com/x" (some 5)).q
      = [("http://example.com/x", 10), ("http://example.com/x", 5)]
    ∧ (add_url cfg0 (add_url cfg0 emptyState "http://example.com/x" (some 10))
        "http://example.com/x" (some 5)).seen_urls = ["http://example.com/x"] := by
  decide

/-- C2: on a root page linking to two in-scope childless pages, every
maximal schedule of a worker pool with maxTasks 1 or 10 terminates (there
is no infinite run), a reachable state is stuck exactly when the frontier
is drained, and every reachable drained state carries exactly three
FetchStatistic records. -/
theorem two_page_crawl_drains_three_outcomes (n : Nat) (hn : n = 1 ∨ n = 10) :
    (∀ f : Nat → SysState, f 0 = initState2 →
        (∀ i, Step cfg2 world2 n (f i) (f (i + 1))) → False)
    ∧ (∀ s, Relation.ReflTransGen (Step cfg2 world2 n) initState2 s →
        ((∀ t, ¬ Step cfg2 world2 n s t) ↔ Drained s))
    ∧ (∀ s, Relation.ReflTransGen (Step cfg2 world2 n) initState2 s → Drained s →
        s.base.visited.length = 3) := by
  have hn' : 0 < n := by rcases hn with rfl | rfl <;> decide
  refine ⟨no_infinite_run n, fun s hs => ?_, fun s hs hd =>
    drained_reach_three s (reach_of_reflTrans n s hs) hd⟩
  constructor
  · intro hterm
    by_contra hnd
    rcases reach_progress n hn' s (reach_of_reflTrans n s hs) hnd with ⟨t, ht⟩
    exact hterm t ht
  · intro hd t
    exact drained_no_step cfg2 world2 n s t hd

/-- C2 witness: the crawl property instantiated at one worker. -/
theorem two_page_crawl_drains_three_outcomes_witness :
    ((1 : Nat) = 1 ∨ (1 : Nat) = 10)
    ∧ ((∀ f : Nat → SysState, f 0 = initState2 →
          (∀ i, Step cfg2 world2 1 (f i) (f (i + 1))) → False)
       ∧ (∀ s, Relation.ReflTransGen (Step cfg2 world2 1) initState2 s →
           ((∀ t, ¬ Step cfg2 world2 1 s t) ↔ Drained s))
       ∧ (∀ s, Relation.ReflTransGen (Step cfg2 world2 1) initState2 s → Drained s →
           s.base.visited.length = 3)) :=
  ⟨Or.inl rfl, two_page_crawl_drains_three_outcomes 1 (Or.inl rfl)⟩

/-- C4: host_okay computes exactly the scope policy the specification
describes, and decides the four example hosts as stated. -/
theorem host_okay_matches_spec_policy :
    (∀ root_domain host, host_okay root_domain host = spec_host_in_scope root_domain host)
    ∧ host_okay "example.com" "example.com" = true
    ∧ host_okay "example.com" "www.example.com" = true
    ∧ host_okay "example.com" "sub.example.com" = false
    ∧ host_okay "example.com" "192.168.0.1" = false := by
  refine ⟨fun rd h => ?_, by decide, by decide, by decide, by decide⟩
  simp only [host_okay, spec_host_in_scope]
  split_ifs <;> simp_all

/-- C5 counterexample: process_redirect admits the raw urljoin of the
requesting URL and the Location value, so a Location carrying a fragment
is admitted with its fragment, while the Normalizer output is the
fragment-free form. -/
theorem process_redirect_keeps_fragment_concrete :
    process_redirect ⟨[], ["http://example.com/s"], [], []⟩ cfg0
        ⟨301, [("location", "b#sec")], "", [], []⟩ "http://example.com/s" 5
      = .ok ⟨[("http://example.com/b#sec", 4)],
             ["http://example.com/s", "http://example.com/b#sec"], [], []⟩
    ∧ normalize_url "b#sec" "http://example.com/s" = "http://example.com/b"
    ∧ ("http://example.com/b#sec" : String) ≠ "http://example.com/b" := by
  decide

/-- C5 amended: a first-seen redirect target with remaining budget is
admitted as the plain urljoin of the requesting URL and the Location value;
no fragment is removed on the redirect path. -/
theorem process_redirect_admits_raw_join_target (st : CrawlState) (cfg : Config)
    (resp : SimResponse) (url location : String) (m : Nat)
    (hloc : lookupHeader resp.headers "location" = some location)
    (hnew : urljoin url location ∉ st.seen_urls) (hm : 0 < m) :
    process_redirect st cfg resp url m
      = .ok (add_url cfg st (urljoin url location) (some (m - 1))) := by
  unfold process_redirect
  rw [hloc]
  simp only [if_neg hnew, if_pos hm]

/-- C5 amended witness: a concrete fragment-carrying Location admitted
as-is. -/
theorem process_redirect_admits_raw_join_target_witness :
    urljoin "http://example.com/t" "c#frag" ∉ (["http://example.com/t"] : List String)
    ∧ process_redirect ⟨[], ["http://example.com/t"], [], []⟩ cfg0
        ⟨302, [("location", "c#frag")], "", [], []⟩ "http://example.com/t" 7
      = .ok (add_url cfg0 ⟨[], ["http://example.com/t"], [], []⟩
          (urljoin "http://example.com/t" "c#frag") (some 6)) :=
  ⟨by decide,
   process_redirect_admits_raw_join_target _ cfg0 _ _ "c#frag" 7 (by decide) (by decide)
     (by decide)⟩

/-- C6: a redirect whose resolved target is already in seen_urls leaves
the state unchanged whatever the remaining budget is; the seen check comes
before the budget check. -/
theorem process_redirect_drops_seen_target_before_budget (st : CrawlState) (cfg : Config)
    (resp : SimResponse) (url location : String) (m : Nat)
    (hloc : lookupHeader resp.headers "location" = some location)
    (hseen : urljoin url location ∈ st.seen_urls) :
    process_redirect st cfg resp url m = .ok st := by
  unfold process_redirect
  rw [hloc]
  simp only [if_pos hseen]

/-- C6 witness: a seen target dropped although five redirects remain. -/
theorem process_redirect_drops_seen_target_before_budget_witness :
    urljoin "http://example.com/s" "t" ∈ (["http://example.com/t"] : List String)
    ∧ process_redirect ⟨[], ["http://example.com/t"], [], []⟩ cfg0
        ⟨301, [("location", "t")], "", [], []⟩ "http://example.com/s" 5
      = .ok ⟨[], ["http://example.com/t"], [], []⟩ :=
  ⟨by decide,
   process_redirect_drops_seen_target_before_budget _ cfg0 _ _ "t" 5 (by decide) (by decide)⟩

/-- C7: a non-redirect response that is not a 200 text/html or
application/xml page yields exactly one statistic with zero extracted
links, and the queue, the seen set and the sitemap are untouched. -/
theorem non_html_fetch_single_outcome_zero_links (cfg : Config) (world : World)
    (st : CrawlState) (url : String) (m : Nat) (resp : SimResponse)
    (hw : world url = some resp) (hnr : is_redirect resp = false)
    (h : resp.status ≠ 200 ∨ ((py_content_type resp).1 ≠ some "text/html"
          ∧ (py_content_type resp).1 ≠ some "application/xml")) :
    ∃ stat : FetchStatistic, stat.num_urls = 0
      ∧ fetch cfg world st url m = .ok { st with visited := st.visited ++ [stat] } := by
  by_cases hst : resp.status = 200
  · have hct : (py_content_type resp).1 ≠ some "text/html"
        ∧ (py_content_type resp).1 ≠ some "application/xml" := by
      rcases h with h | h
      · exact absurd hst h
      · exact h
    refine ⟨⟨url, none, 200, none, utf8Length resp.body, (py_content_type resp).1,
        some (((py_content_type resp).2.lookup "charset").getD "utf-8"), 0, 0⟩, rfl, ?_⟩
    rw [fetch_shape_parse cfg world st url m resp hw hnr,
      parse_response_200_not_html cfg st resp url hst hct.1 hct.2]
    simp [setUpdate]
  · refine ⟨⟨url, none, resp.status, none, utf8Length resp.body, none, none, 0, 0⟩, rfl, ?_⟩
    rw [fetch_shape_parse cfg world st url m resp hw hnr,
      parse_response_non200 cfg st resp url hst]
    simp [setUpdate]

/-- C7 witness: a text/plain page produces one zero-link statistic. -/
theorem non_html_fetch_single_outcome_zero_links_witness :
    (py_content_type respPlain).1 = some "text/plain"
    ∧ ∃ stat : FetchStatistic, stat.num_urls = 0
        ∧ fetch cfg0 worldC7 emptyState "http://example.com/p" 10
            = .ok { emptyState with visited := emptyState.visited ++ [stat] } :=
  ⟨by decide,
   non_html_fetch_single_outcome_zero_links cfg0 worldC7 emptyState _ 10 respPlain
     (by decide) (by decide) (Or.inr ⟨by decide, by decide⟩)⟩

/-- C8: every admission path preserves the invariant that each queued URL
is in seen_urls, each path only grows seen_urls, and a worker taking the
queue head always finds its URL in seen_urls (the assert of work). -/
theorem frontier_urls_seen_invariant (cfg : Config) (world : World) :
    (∀ st url m, FrontierInv st →
        FrontierInv (add_url cfg st url m)
        ∧ st.seen_urls ⊆ (add_url cfg st url m).seen_urls)
    ∧ (∀ st resp url m st', FrontierInv st → process_redirect st cfg resp url m = .ok st' →
        FrontierInv st' ∧ st.seen_urls ⊆ st'.seen_urls)
    ∧ (∀ st url m st', FrontierInv st → fetch cfg world st url m = .ok st' →
        FrontierInv st' ∧ st.seen_urls ⊆ st'.seen_urls)
    ∧ (∀ st it rest, FrontierInv st → st.q = it :: rest →
        it.1 ∈ st.seen_urls ∧ FrontierInv { st with q := rest }) := by
  have hadd : ∀ st url m, FrontierInv st →
      FrontierInv (add_url cfg st url m)
      ∧ st.seen_urls ⊆ (add_url cfg st url m).seen_urls := by
    intro st url m hinv
    constructor
    · intro it hit
      simp only [add_url] at hit ⊢
      rcases List.mem_append.mp hit with hold | hnew
      · exact mem_setAdd_of_mem url (hinv it hold)
      · have heq : it = (url, m.getD cfg.max_redirect) := by simpa using hnew
        rw [heq]
        exact mem_setAdd_self st.seen_urls url
    · intro y hy
      exact mem_setAdd_of_mem url hy
  have hred : ∀ st resp url m st', FrontierInv st →
      process_redirect st cfg resp url m = .ok st' →
      FrontierInv st' ∧ st.seen_urls ⊆ st'.seen_urls := by
    intro st resp url m st' hinv hok
    unfold process_redirect at hok
    cases hloc : lookupHeader resp.headers "location" with
    | none => rw [hloc] at hok; cases hok
    | some loc =>
      rw [hloc] at hok
      simp only [] at hok
      by_cases h1 : urljoin url loc ∈ st.seen_urls
      · rw [if_pos h1] at hok
        cases hok
        exact ⟨hinv, fun y hy => hy⟩
      · rw [if_neg h1] at hok
        by_cases h2 : m > 0
        · rw [if_pos h2] at hok
          cases hok
          exact hadd st (urljoin url loc) (some (m - 1)) hinv
        · rw [if_neg h2] at hok
          cases hok
          exact ⟨hinv, fun y hy => hy⟩
  refine ⟨hadd, hred, ?_, ?_⟩
  · intro st url m st' hinv hok
    cases hw : world url with
    | none =>
      unfold fetch at hok
      rw [hw] at hok
      simp only [] at hok
      cases hok
      exact ⟨hinv, fun y hy => hy⟩
    | some resp =>
      by_cases hr : is_redirect resp
      · unfold fetch at hok
        rw [hw] at hok
        simp only [hr, if_true] at hok
        exact hred st resp url m st' hinv hok
      · have hb : is_redirect resp = false := by simpa using hr
        rw [fetch_shape_parse cfg world st url m resp hw hb] at hok
        injection hok with hok'
        subst hok'
        have hqs := parse_response_keeps_q_seen cfg st resp url
        constructor
        · intro it hit
          rcases List.mem_append.mp hit with hold | hnew
          · rw [hqs.1] at hold
            refine subset_setUpdate _ _ ?_
            rw [hqs.2]
            exact hinv it hold
          · rcases List.mem_map.mp hnew with ⟨l, hl, rfl⟩
            exact mem_setUpdate_of_mem_arg _ l _ (List.mem_of_mem_filter hl)
        · intro y hy
          refine subset_setUpdate _ _ ?_
          rw [hqs.2]
          exact hy
  · intro st it rest hinv hq
    refine ⟨hinv it (by rw [hq]; exact List.mem_cons_self it rest), ?_⟩
    intro it2 hit2
    exact hinv it2 (by rw [hq]; exact List.mem_cons_of_mem it hit2)

/-- C8 witness: the invariant holds after the root admission, the queue
head URL is seen, and a further admission preserves the invariant. -/
theorem frontier_urls_seen_invariant_witness :
    FrontierInv ⟨[(root2, 10)], [root2], [], []⟩
    ∧ root2 ∈ (⟨[(root2, 10)], [root2], [], []⟩ : CrawlState).seen_urls
    ∧ FrontierInv (add_url cfg2 ⟨[(root2, 10)], [root2], [], []⟩ childA (some 3)) := by
  have hinv : FrontierInv ⟨[(root2, 10)], [root2], [], []⟩ := by
    unfold FrontierInv
    decide
  refine ⟨hinv, ?_, ?_⟩
  · exact ((frontier_urls_seen_invariant cfg2 world2).2.2.2 _ (root2, 10) [] hinv rfl).1
  · exact ((frontier_urls_seen_invariant cfg2 world2).1 _ childA (some 3) hinv).1

/-- C9: a response with a redirect status but no Location header makes
process_redirect raise a KeyError that escapes fetch: no URL is admitted
and no statistic is recorded. -/
theorem redirect_missing_location_raises_keyerror (cfg : Config) (world : World)
    (st : CrawlState) (url : String) (m : Nat) (resp : SimResponse)
    (hw : world url = some resp) (hred : is_redirect resp = true)
    (hloc : lookupHeader resp.headers "location" = none) :
    process_redirect st cfg resp url m = .error (.keyError "location")
    ∧ fetch cfg world st url m = .error (.keyError "location") := by
  have h1 : process_redirect st cfg resp url m = .error (.keyError "location") := by
    unfold process_redirect
    rw [hloc]
  refine ⟨h1, ?_⟩
  unfold fetch
  rw [hw]
  simp only [hred, if_true]
  exact h1

/-- C9 witness: a 301 without headers kills the fetch with a KeyError. -/
theorem redirect_missing_location_raises_keyerror_witness :
    is_redirect respC9 = true ∧ lookupHeader respC9.headers "location" = none
    ∧ fetch cfg0 worldC9 emptyState "http://example.com/r" 10
        = .error (.keyError "location") :=
  ⟨by decide, by decide,
   (redirect_missing_location_raises_keyerror cfg0 worldC9 emptyState _ 10 respC9
     (by decide) (by decide) (by decide)).2⟩

/-- C10: a URL whose parsed scheme is neither http nor https is rejected by
url_allowed before any host check. -/
theorem url_allowed_rejects_non_http_scheme (root_domain url : String)
    (h1 : (urlsplitL url.data []).scheme ≠ "http".data)
    (h2 : (urlsplitL url.data []).scheme ≠ "https".data) :
    url_allowed root_domain url = false := by
  unfold url_allowed
  rw [if_pos]
  push_neg
  exact ⟨h1, h2⟩

/-- C10 witness: a mailto URL is rejected although its host would pass the
scope policy. -/
theorem url_allowed_rejects_non_http_scheme_witness :
    (urlsplitL "mailto:user@example.com".data []).scheme = "mailto".data
    ∧ host_okay "example.com" "example.com" = true
    ∧ url_allowed "example.com" "mailto:user@example.com" = false :=
  ⟨by decide, by decide,
   url_allowed_rejects_non_http_scheme "example.com" _ (by decide) (by decide)⟩

/-! ## Lemmas about the redirect chain site -/

theorem splitAtChar_replicate (c a : Char) (h : ¬ a = c) (n : Nat) :
    splitAtChar c (List.replicate n a) = none := by
  induction n with
  | zero => rfl
  | succ k ih => simp [List.replicate_succ, splitAtChar, h, ih]

theorem countAs_replicate (n : Nat) : countAs (List.replicate n 'a') = some n := by
  induction n with
  | zero => rfl
  | succ k ih => simp [List.replicate_succ, countAs, ih]

theorem stripThenCount_self (pre : List Char) :
    ∀ l, stripThenCount pre (pre ++ l) = countAs l := by
  induction pre with
  | nil => intro l; rfl
  | cons c p ih => intro l; simp [stripThenCount, ih]

theorem decodeChain_chainUrl (k : Nat) : decodeChain (chainUrl k) = some k := by
  show stripThenCount preData (preData ++ List.replicate k 'a') = some k
  rw [stripThenCount_self, countAs_replicate]

theorem chainUrl_inj {a b : Nat} (h : chainUrl a = chainUrl b) : a = b := by
  have h2 := congrArg decodeChain h
  rw [decodeChain_chainUrl, decodeChain_chainUrl] at h2
  exact Option.some.inj h2

theorem chainUrl_not_mem_chainSeen (k : Nat) : chainUrl (k + 1) ∉ chainSeen k := by
  intro h
  rcases List.mem_map.mp h with ⟨j, hj, hje⟩
  have hjk : j < k + 1 := List.mem_range.mp hj
  have := chainUrl_inj hje
  omega

theorem chainWorld_chainUrl (L k : Nat) : chainWorld L (chainUrl k) = chainResp L k := by
  unfold chainWorld
  rw [show decodeChain (chainUrl k) = some k from decodeChain_chainUrl k]

theorem urlsplit_chain (d : List Char) (n : Nat) :
    urlsplitL (preData ++ List.replicate n 'a') d
      = ⟨['h', 't', 't', 'p'], ['e', 'x', 'a', 'm', 'p', 'l', 'e', '.', 'c', 'o', 'm'],
         '/' :: List.replicate n 'a', [], []⟩ := by
  have h1 : splitAtChar '#' ('/' :: List.replicate n 'a') = none := by
    simp [splitAtChar, splitAtChar_replicate '#' 'a' (by decide) n]
  have h2 : splitAtChar '?' ('/' :: List.replicate n 'a') = none := by
    simp [splitAtChar, splitAtChar_replicate '?' 'a' (by decide) n]
  have hstep : urlsplitL (preData ++ List.replicate n 'a') d
      = urlsplitRest ['h', 't', 't', 'p']
          ('/' :: '/' :: 'e' :: 'x' :: 'a' :: 'm' :: 'p' :: 'l' :: 'e' :: '.' :: 'c' :: 'o'
            :: 'm' :: '/' :: List.replicate n 'a') := rfl
  have hnp : (if List.take 2 ('/' :: '/' :: 'e' :: 'x' :: 'a' :: 'm' :: 'p' :: 'l' :: 'e'
          :: '.' :: 'c' :: 'o' :: 'm' :: '/' :: List.replicate n 'a') = ['/', '/'] then
        splitNetloc (List.drop 2 ('/' :: '/' :: 'e' :: 'x' :: 'a' :: 'm' :: 'p' :: 'l' :: 'e'
          :: '.' :: 'c' :: 'o' :: 'm' :: '/' :: List.replicate n 'a'))
      else ([], '/' :: '/' :: 'e' :: 'x' :: 'a' :: 'm' :: 'p' :: 'l' :: 'e' :: '.' :: 'c'
          :: 'o' :: 'm' :: '/' :: List.replicate n 'a'))
      = (['e', 'x', 'a', 'm', 'p', 'l', 'e', '.', 'c', 'o', 'm'],
         '/' :: List.replicate n 'a') := rfl
  rw [hstep]
  unfold urlsplitRest
  simp only [hnp, h1, h2]

theorem urljoin_chain (i j : Nat) :
    urljoinL (preData ++ List.replicate i 'a') (preData ++ List.replicate j 'a')
      = preData ++ List.replicate j 'a' := by
  have hne : ∀ k : Nat, preData ++ List.replicate k 'a' ≠ [] := by
    intro k h
    simp [preData] at h
  unfold urljoinL
  rw [if_neg (hne i), if_neg (hne j), urlsplit_chain]
  simp only [urlsplit_chain]
  rfl

theorem urljoin_chainUrl (i j : Nat) : urljoin (chainUrl i) (chainUrl j) = chainUrl j := by
  show String.mk (urljoinL (preData ++ List.replicate i 'a') (preData ++ List.replicate j 'a'))
      = chainUrl j
  rw [urljoin_chain]
  rfl

theorem process_redirect_fresh (st : CrawlState) (cfg : Config) (resp : SimResponse)
    (url location : String) (m : Nat)
    (hloc : lookupHeader resp.headers "location" = some location)
    (hnew : urljoin url location ∉ st.seen_urls) (hm : 0 < m) :
    process_redirect st cfg resp url m
      = .ok (add_url cfg st (urljoin url location) (some (m - 1))) := by
  unfold process_redirect
  rw [hloc]
  simp only [if_neg hnew, if_pos hm]

theorem process_redirect_exhausted (st : CrawlState) (cfg : Config) (resp : SimResponse)
    (url location : String)
    (hloc : lookupHeader resp.headers "location" = some location)
    (hnew : urljoin url location ∉ st.seen_urls) :
    process_redirect st cfg resp url 0 = .ok st := by
  unfold process_redirect
  rw [hloc]
  simp only [if_neg hnew]
  rfl

theorem fetch_shape_redirect (cfg : Config) (world : World) (st : CrawlState) (url : String)
    (m : Nat) (resp : SimResponse) (hw : world url = some resp)
    (hr : is_redirect resp = true) :
    fetch cfg world st url m = process_redirect st cfg resp url m := by
  unfold fetch
  rw [hw]
  simp only [hr, if_true]

theorem chainSeen_succ (k : Nat) :
    setAdd (chainSeen k) (chainUrl (k + 1)) = chainSeen (k + 1) := by
  unfold setAdd
  rw [if_neg (chainUrl_not_mem_chainSeen k)]
  show List.map chainUrl (List.range (k + 1)) ++ [chainUrl (k + 1)]
      = List.map chainUrl (List.range (k + 1 + 1))
  rw [show List.range (k + 1 + 1) = List.range (k + 1) ++ [k + 1] from List.range_succ (k + 1)]
  simp

theorem chain_fetch_redirect (L M k : Nat) (hkL : k < L) (hkM : k < M) :
    fetch (cfgChain M) (chainWorld L) ⟨[], chainSeen k, [], []⟩ (chainUrl k) (M - k)
      = .ok ⟨[(chainUrl (k + 1), M - (k + 1))], chainSeen (k + 1), [], []⟩ := by
  have hresp : chainWorld L (chainUrl k)
      = some ⟨301, [("location", chainUrl (k + 1))], "", [], []⟩ := by
    rw [chainWorld_chainUrl]
    unfold chainResp
    rw [if_pos hkL]
  rw [fetch_shape_redirect _ _ _ _ _ _ hresp rfl]
  rw [process_redirect_fresh ⟨[], chainSeen k, [], []⟩ (cfgChain M)
    ⟨301, [("location", chainUrl (k + 1))], "", [], []⟩ (chainUrl k) (chainUrl (k + 1))
    (M - k) rfl
    (by rw [urljoin_chainUrl]; exact chainUrl_not_mem_chainSeen k) (by omega)]
  rw [urljoin_chainUrl]
  unfold add_url
  rw [chainSeen_succ, Nat.sub_sub]
  rfl

theorem chain_fetch_final (L M b : Nat) :
    fetch (cfgChain M) (chainWorld L) ⟨[], chainSeen L, [], []⟩ (chainUrl L) b
      = .ok ⟨[], chainSeen L, [statChain L], [(chainUrl L, ⟨[], []⟩)]⟩ := by
  have hresp : chainWorld L (chainUrl L)
      = some ⟨200, [("content-type", "text/html")], "", [], []⟩ := by
    rw [chainWorld_chainUrl]
    unfold chainResp
    rw [if_neg (lt_irrefl L), if_pos rfl]
  unfold fetch
  rw [hresp]
  rfl

theorem chain_fetch_drop (L M : Nat) (hML : M < L) :
    fetch (cfgChain M) (chainWorld L) ⟨[], chainSeen M, [], []⟩ (chainUrl M) 0
      = .ok ⟨[], chainSeen M, [], []⟩ := by
  have hresp : chainWorld L (chainUrl M)
      = some ⟨301, [("location", chainUrl (M + 1))], "", [], []⟩ := by
    rw [chainWorld_chainUrl]
    unfold chainResp
    rw [if_pos hML]
  rw [fetch_shape_redirect _ _ _ _ _ _ hresp rfl]
  exact process_redirect_exhausted ⟨[], chainSeen M, [], []⟩ (cfgChain M)
    ⟨301, [("location", chainUrl (M + 1))], "", [], []⟩ (chainUrl M) (chainUrl (M + 1)) rfl
    (by rw [urljoin_chainUrl]; exact chainUrl_not_mem_chainSeen M)

theorem runChain_complete (L M : Nat) (hLM : L ≤ M) :
    ∀ j k, k + j = L →
      runSeq (cfgChain M) (chainWorld L) (j + 2)
          ⟨[(chainUrl k, M - k)], chainSeen k, [], []⟩
        = .ok ⟨[], chainSeen L, [statChain L], [(chainUrl L, ⟨[], []⟩)]⟩ := by
  intro j
  induction j with
  | zero =>
    intro k hk
    have hkL : k = L := by omega
    subst hkL
    show (fetch (cfgChain M) (chainWorld k) ⟨[], chainSeen k, [], []⟩ (chainUrl k)
        (M - k)).bind (runSeq (cfgChain M) (chainWorld k) 1)
      = .ok ⟨[], chainSeen k, [statChain k], [(chainUrl k, ⟨[], []⟩)]⟩
    rw [chain_fetch_final k M (M - k)]
    rfl
  | succ jj ih =>
    intro k hk
    have hkL : k < L := by omega
    have hkM : k < M := by omega
    show (fetch (cfgChain M) (chainWorld L) ⟨[], chainSeen k, [], []⟩ (chainUrl k)
        (M - k)).bind (runSeq (cfgChain M) (chainWorld L) (jj + 2))
      = .ok ⟨[], chainSeen L, [statChain L], [(chainUrl L, ⟨[], []⟩)]⟩
    rw [chain_fetch_redirect L M k hkL hkM]
    show runSeq (cfgChain M) (chainWorld L) (jj + 2)
        ⟨[(chainUrl (k + 1), M - (k + 1))], chainSeen (k + 1), [], []⟩
      = .ok ⟨[], chainSeen L, [statChain L], [(chainUrl L, ⟨[], []⟩)]⟩
    exact ih (k + 1) (by omega)

theorem runChain_drop (L M : Nat) (hML : M < L) :
    ∀ j k, k + j = M →
      runSeq (cfgChain M) (chainWorld L) (j + 2)
          ⟨[(chainUrl k, M - k)], chainSeen k, [], []⟩
        = .ok ⟨[], chainSeen M, [], []⟩ := by
  intro j
  induction j with
  | zero =>
    intro k hk
    have hkM : k = M := by omega
    subst hkM
    show (fetch (cfgChain k) (chainWorld L) ⟨[], chainSeen k, [], []⟩ (chainUrl k)
        (k - k)).bind (runSeq (cfgChain k) (chainWorld L) 1)
      = .ok ⟨[], chainSeen k, [], []⟩
    rw [show k - k = 0 from by omega]
    rw [chain_fetch_drop L k hML]
    rfl
  | succ jj ih =>
    intro k hk
    have hkL : k < L := by omega
    have hkM : k < M := by omega
    show (fetch (cfgChain M) (chainWorld L) ⟨[], chainSeen k, [], []⟩ (chainUrl k)
        (M - k)).bind (runSeq (cfgChain M) (chainWorld L) (jj + 2))
      = .ok ⟨[], chainSeen M, [], []⟩
    rw [chain_fetch_redirect L M k hkL hkM]
    show runSeq (cfgChain M) (chainWorld L) (jj + 2)
        ⟨[(chainUrl (k + 1), M - (k + 1))], chainSeen (k + 1), [], []⟩
      = .ok ⟨[], chainSeen M, [], []⟩
    exact ih (k + 1) (by omega)

/-- C3: crawling a pure redirect chain of length L with configured
maximum redirect depth M drains the frontier; when L is at most M the
final hop is fetched and exactly one FetchStatistic, for the final URL, is
recorded; when L exceeds M the chain is dropped at the hop whose budget
reached zero: hops 0 through M are admitted, nothing beyond, and no
FetchStatistic at all is recorded. -/
theorem redirect_chain_budget_behaviour (L M : Nat) :
    (L ≤ M →
      runSeq (cfgChain M) (chainWorld L) (L + 2) (initChain M)
        = .ok ⟨[], chainSeen L, [statChain L], [(chainUrl L, ⟨[], []⟩)]⟩)
    ∧ (M < L →
      runSeq (cfgChain M) (chainWorld L) (M + 2) (initChain M)
        = .ok ⟨[], chainSeen M, [], []⟩) := by
  have h0 : initChain M = ⟨[(chainUrl 0, M - 0)], chainSeen 0, [], []⟩ := rfl
  constructor
  · intro h
    rw [h0]
    exact runChain_complete L M h L 0 (by omega)
  · intro h
    rw [h0]
    exact runChain_drop L M h M 0 (by omega)

/-- C3 witness: a chain of length 1 under budget 2 completes with one
outcome; a chain of length 2 under budget 1 is dropped with none. -/
theorem redirect_chain_budget_behaviour_witness :
    (1 ≤ 2 ∧ runSeq (cfgChain 2) (chainWorld 1) 3 (initChain 2)
        = .ok ⟨[], chainSeen 1, [statChain 1], [(chainUrl 1, ⟨[], []⟩)]⟩)
    ∧ (1 < 2 ∧ runSeq (cfgChain 1) (chainWorld 2) 3 (initChain 1)
        = .ok ⟨[], chainSeen 1, [], []⟩) :=
  ⟨⟨by decide, (redirect_chain_budget_behaviour 1 2).1 (by decide)⟩,
   ⟨by decide, (redirect_chain_budget_behaviour 2 1).2 (by decide)⟩⟩
